import Mathlib

/-!
# SciTok feed engine: a shallow embedding

A Lean model of the feed acquisition, caching and ranking engine of the
SciTok single-page application (`src/app/page.tsx`), together with the
pagination state machine, and proofs of the behavioural properties stated
in the specification.

Conventions of the embedding:
* JavaScript `Map`/`Set` become association lists / lists (insertion at the
  head shadows older entries, lookup finds the newest, membership is list
  membership);
* JavaScript objects used as string-keyed records (`likedTopics`) become
  association lists in insertion order, mirroring `Object.entries` order;
* `localStorage` and `JSON.parse` are modelled as explicit function
  parameters; a `JSON.parse` that can throw is modelled in `Except`;
* `Math.random` draws are an explicit list of `(term, offset)` pairs;
* the network is a function `String → Nat → Option (List Paper)`, `none`
  standing for a transport or parse failure.
-/

namespace SciTok

/-- An article author, `interface Author` of the source. -/
structure Author where
  name : String
deriving DecidableEq, Repr

/-- A feed article, `interface Article` of the source.  The source tag is a
string (`"semantic"` or `"arxiv"`). -/
structure Article where
  id : String
  title : String
  authors : List Author
  abstract : String
  url : String
  year : Nat
  source : String
deriving DecidableEq, Repr

/-- User preferences, `interface UserPreferences` of the source.  The
`likedTopics` object is an association list in insertion order. -/
structure UserPreferences where
  likedArticles : List String
  savedArticles : List String
  likedTopics : List (String × Nat)
deriving DecidableEq, Repr

/-- The initial all-empty preferences record. -/
def defaultPreferences : UserPreferences :=
  { likedArticles := [], savedArticles := [], likedTopics := [] }

/-- The fixed 15-term search vocabulary `SEARCH_TERMS` of the source. -/
def SEARCH_TERMS : List String :=
  [ "science", "biology", "ai", "data", "physics", "chemistry",
    "technology", "research", "machine learning", "neuroscience",
    "mathematics", "computer science", "psychology", "medicine",
    "engineering" ]

/-- JavaScript `s.includes(pat)`: `pat` occurs as a contiguous substring of
`s`. -/
def containsSub (s pat : String) : Bool :=
  (List.range (s.data.length + 1)).any fun i => pat.data.isPrefixOf (s.data.drop i)

/-- Reading a score from the `likedTopics` record: `m[t] || 0`. -/
def topicScore (m : List (String × Nat)) (t : String) : Nat :=
  match m.find? (fun e => e.1 == t) with
  | some e => e.2
  | none => 0

/-- Writing a score to the `likedTopics` record: `m[t] = v`.  An existing
key is updated in place (insertion order preserved); a new key is appended
at the end, as JavaScript object assignment does. -/
def setTopic (m : List (String × Nat)) (t : String) (v : Nat) : List (String × Nat) :=
  if m.any (fun e => e.1 == t) then
    m.map (fun e => if e.1 == t then (e.1, v) else e)
  else
    m ++ [(t, v)]

/-- JavaScript `s.toLowerCase()`, modelled character by character. -/
def jsToLower (s : String) : String :=
  String.mk (s.data.map Char.toLower)

/-- Does the vocabulary term occur (case-insensitively) in the article's
title + abstract?  The source computes
`text = (title + " " + abstract).toLowerCase()` and tests
`text.includes(term.toLowerCase())`. -/
def matchesTerm (article : Article) (term : String) : Bool :=
  containsSub (jsToLower (article.title ++ " " ++ article.abstract)) (jsToLower term)

/-- The topic-score update performed on a like: for every vocabulary term
occurring in the article's text, `newLikedTopics[term] =
(newLikedTopics[term] || 0) + 1`. -/
def bumpTopics (article : Article) (m : List (String × Nat)) : List (String × Nat) :=
  SEARCH_TERMS.foldl
    (fun acc term =>
      if matchesTerm article term then setTopic acc term (topicScore acc term + 1)
      else acc)
    m

/-- `handleLike` of the source (the persistence side effect elided): toggle
membership of the article id in `likedArticles`; on a like (not an unlike)
bump the matching topic scores. -/
def handleLike (p : UserPreferences) (article : Article) : UserPreferences :=
  let isLiked := p.likedArticles.contains article.id
  let newLikedArticles :=
    if isLiked then p.likedArticles.filter (fun i => i != article.id)
    else p.likedArticles ++ [article.id]
  let newLikedTopics :=
    if isLiked then p.likedTopics else bumpTopics article p.likedTopics
  { p with likedArticles := newLikedArticles, likedTopics := newLikedTopics }

/-- The comparison used on topic entries:
`  .sort(([, a], [, b]) => b - a)` keeps `x` before `y` exactly when
`y.score ≤ x.score`. -/
def topicGE (x y : String × Nat) : Prop := y.2 ≤ x.2

instance : DecidableRel topicGE := fun x y => Nat.decLe y.2 x.2

instance : IsTotal (String × Nat) topicGE := ⟨fun a b => le_total b.2 a.2⟩

instance : IsTrans (String × Nat) topicGE := ⟨fun _ _ _ h1 h2 => le_trans h2 h1⟩

/-- The stable descending sort of `Object.entries(topicScores)` by score of
the source.  JavaScript's sort is stable (ES2019), so any stable sort by
the same total preorder — here insertion sort — produces the same list. -/
def sortTopics (topics : List (String × Nat)) : List (String × Nat) :=
  topics.insertionSort topicGE

/-- `getRecommendedTerms` of the source: the top 5 topics by descending
score, followed by the default vocabulary; just the default vocabulary when
there are no topics. -/
def getRecommendedTerms (topics : List (String × Nat)) : List String :=
  let sortedTopics := ((sortTopics topics).take 5).map Prod.fst
  if sortedTopics.length > 0 then sortedTopics ++ SEARCH_TERMS else SEARCH_TERMS

/-! ## Fetch & Cache Manager -/

/-- A raw provider result item (`data.data[i]` of the search response):
every field may be missing. -/
structure Paper where
  paperId : Option String
  title : Option String
  authors : Option (List Author)
  abstract : Option String
  url : Option String
  year : Option Nat
deriving DecidableEq, Repr

/-- JavaScript truthiness of an optional string: missing and `""` are
falsy. -/
def truthyStr (o : Option String) : Bool :=
  match o with
  | some s => s != ""
  | none => false

/-- JavaScript `o || d` on an optional string (missing or empty falls back
to the default). -/
def jsOrStr (o : Option String) (d : String) : String :=
  match o with
  | some s => if s == "" then d else s
  | none => d

/-- JavaScript `o || d` on an optional number (missing or `0` falls back to
the default). -/
def jsOrNat (o : Option Nat) (d : Nat) : Nat :=
  match o with
  | some n => if n == 0 then d else n
  | none => d

/-- The filter predicate of `fetchArticles`:
`paper.abstract && paper.title && paper.abstract.length > 100`. -/
def qualifies (p : Paper) : Bool :=
  truthyStr p.abstract && truthyStr p.title &&
    decide (100 < (p.abstract.getD "").length)

/-- The `.map` body of `fetchArticles`: build an `Article` from a raw
paper.  `fallbackId` stands for the synthesized
`Date.now() + "-" + Math.random()` id used when `paperId` is falsy. -/
def mapPaper (fallbackId : String) (currentYear : Nat) (p : Paper) : Article :=
  { id := jsOrStr p.paperId fallbackId
    title := p.title.getD ""
    authors := p.authors.getD []
    abstract := p.abstract.getD ""
    url := jsOrStr p.url "#"
    year := jsOrNat p.year currentYear
    source := "semantic" }

/-- Filter and map of one provider response: keep the qualifying papers and
turn each into an `Article`; `fresh i` is the synthesized id offered to the
`i`-th qualifying paper. -/
def processResponse (fresh : Nat → String) (currentYear : Nat)
    (papers : List Paper) : List Article :=
  (papers.filter qualifies).enum.map (fun e => mapPaper (fresh e.1) currentYear e.2)

/-- Lookup in the session cache (`cache.get(key)` on the `Map`); newest
binding wins, as `Map.set` overwrites. -/
def lookupCache (cache : List (String × List Article)) (key : String) :
    Option (List Article) :=
  match cache.find? (fun e => e.1 == key) with
  | some e => some e.2
  | none => none

/-- The cache key of a draw: `term + "-" + offset`. -/
def cacheKeyOf (term : String) (offset : Nat) : String :=
  term ++ "-" ++ toString offset

/-- The outcome of the retry loop of `fetchArticles`: the adopted batch
(empty when all attempts fail), the updated cache and used-key set, the
list of cache keys for which the provider was actually contacted, and the
key whose batch was adopted, if any. -/
structure LoopResult where
  batch : List Article
  cache : List (String × List Article)
  usedKeys : List String
  providerCalls : List String
  adoptedKey : Option String
deriving DecidableEq, Repr

/-- The `while (newArticles.length === 0 && attempts < maxAttempts)` loop
of `fetchArticles`.  `draws` is the stream of random `(term, offset)`
draws, one consumed per iteration; `fuel` is `maxAttempts - attempts`.
Branches, in source order: a used key consumes an attempt without
contacting the provider; a cache hit adopts the cached batch and breaks
(without touching the used-key set); otherwise the provider is contacted
and a non-empty filtered batch is adopted, cached and its key marked used,
while a failure or an empty batch consumes the attempt. -/
def fetchLoop (net : String → Nat → Option (List Paper)) (fresh : Nat → String)
    (currentYear : Nat) :
    List (String × Nat) → Nat → List (String × List Article) → List String →
    LoopResult
  | _, 0, cache, used => ⟨[], cache, used, [], none⟩
  | [], _ + 1, cache, used => ⟨[], cache, used, [], none⟩
  | (term, offset) :: rest, fuel + 1, cache, used =>
    let key := cacheKeyOf term offset
    if used.contains key then
      fetchLoop net fresh currentYear rest fuel cache used
    else
      match lookupCache cache key with
      | some cached => ⟨cached, cache, used, [], some key⟩
      | none =>
        match net term offset with
        | none =>
          let r := fetchLoop net fresh currentYear rest fuel cache used
          { r with providerCalls := key :: r.providerCalls }
        | some papers =>
          let fetched := processResponse fresh currentYear papers
          if fetched.isEmpty then
            let r := fetchLoop net fresh currentYear rest fuel cache used
            { r with providerCalls := key :: r.providerCalls }
          else
            ⟨fetched, (key, fetched) :: cache, key :: used, [key], some key⟩

/-- The component state touched by `fetchArticles`: the `loading` flag, the
article buffer and the session cache state. -/
structure AppState where
  loading : Bool
  articles : List Article
  cache : List (String × List Article)
  usedKeys : List String
deriving DecidableEq, Repr

/-- The `setArticles` updater of `fetchArticles`: append only those batch
articles whose id is not already present in the buffer. -/
def appendUnique (prev newArticles : List Article) : List Article :=
  let existingIds := prev.map (fun a => a.id)
  prev ++ newArticles.filter (fun a => !existingIds.contains a.id)

/-- `fetchArticles` of the source: a no-op while `loading` is set;
otherwise run the retry loop (`maxAttempts = 3`) and, when the batch is
non-empty, append its unseen articles to the buffer.  `loading` is cleared
in the `finally`. -/
def fetchArticles (net : String → Nat → Option (List Paper))
    (fresh : Nat → String) (currentYear : Nat) (draws : List (String × Nat))
    (st : AppState) : AppState :=
  if st.loading then st
  else
    let r := fetchLoop net fresh currentYear draws 3 st.cache st.usedKeys
    { loading := false
      articles := if r.batch.isEmpty then st.articles else appendUnique st.articles r.batch
      cache := r.cache
      usedKeys := r.usedKeys }

/-- The buffer-low effect of the source: the number of `fetchArticles`
invocations triggered by one run of the effect, which fires exactly when
`articles.length - currentIndex <= 3 && !loading`. -/
def bufferLowFetchCount (len currentIndex : Nat) (loading : Bool) : Nat :=
  if (len : Int) - (currentIndex : Int) ≤ 3 ∧ loading = false then 1 else 0

/-! ## Preference Store persistence -/

/-- The preferences-load effect of the source:
`const saved = localStorage.getItem(...); if (saved) setUserPreferences(JSON.parse(saved))`.
`stored` is the raw string in storage, `parse` the successful outcomes of
`JSON.parse`; a `parse` miss is the thrown exception. -/
def loadPreferences (stored : Option String)
    (parse : String → Option UserPreferences) : Except Unit UserPreferences :=
  match stored with
  | none => Except.ok defaultPreferences
  | some s =>
    if s == "" then Except.ok defaultPreferences
    else
      match parse s with
      | some p => Except.ok p
      | none => Except.error ()

/-- The `.map` body of `getSavedArticles`:
`const saved = localStorage.getItem("scitok-saved-" + id); return saved ? JSON.parse(saved) : null`.
A missing or empty stored string yields `null` (here `none`); a present one
is parsed, `JSON.parse` throwing on a malformed snapshot. -/
def readSnapshot (store : String → Option String) (parse : String → Option Article)
    (i : String) : Except Unit (Option Article) :=
  match store ("scitok-saved-" ++ i) with
  | none => Except.ok Option.none
  | some s =>
    if s == "" then Except.ok Option.none
    else
      match parse s with
      | some a => Except.ok (Option.some a)
      | none => Except.error ()

/-- `getSavedArticles` of the source: map each saved id through
`readSnapshot` and drop the `null`s with `.filter(Boolean)`. -/
def getSavedArticles (savedIds : List String) (store : String → Option String)
    (parse : String → Option Article) : Except Unit (List Article) :=
  (savedIds.mapM (readSnapshot store parse)).map (fun items => items.filterMap (fun x => x))

/-! ## Feed Buffer & Pagination State Machine -/

/-- A navigation or load input, unifying the wheel, keyboard, touch and
button channels with a buffer append. -/
inductive NavInput where
  | wheel (deltaY : Int)
  | keyArrowDown
  | keyArrowUp
  | touch (diff : Int)
  | nextButton
  | prevButton
  | append (batch : List Article)
deriving DecidableEq, Repr

/-- The pagination state: the buffer and the current position. -/
structure FeedState where
  articles : List Article
  currentIndex : Nat
deriving DecidableEq, Repr

/-- One transition of the pagination state machine, mirroring the guards of
`handleWheel`, `handleKeyDown`, `handleTouchEnd`, `goToNext`,
`goToPrevious` and the `setArticles` append of `fetchArticles`.  Forward
moves are guarded by `currentIndex < articles.length - 1` (JavaScript
arithmetic, hence the `Int` comparison), backward moves by
`currentIndex > 0`; touch moves additionally require `|diff| > 50`. -/
def navStep (s : FeedState) : NavInput → FeedState
  | NavInput.wheel d =>
    if 0 < d ∧ (s.currentIndex : Int) < (s.articles.length : Int) - 1 then
      { s with currentIndex := s.currentIndex + 1 }
    else if d < 0 ∧ 0 < s.currentIndex then
      { s with currentIndex := s.currentIndex - 1 }
    else s
  | NavInput.keyArrowDown =>
    if (s.currentIndex : Int) < (s.articles.length : Int) - 1 then
      { s with currentIndex := s.currentIndex + 1 }
    else s
  | NavInput.keyArrowUp =>
    if 0 < s.currentIndex then { s with currentIndex := s.currentIndex - 1 } else s
  | NavInput.touch diff =>
    if 50 < diff.natAbs then
      if 0 < diff ∧ (s.currentIndex : Int) < (s.articles.length : Int) - 1 then
        { s with currentIndex := s.currentIndex + 1 }
      else if diff < 0 ∧ 0 < s.currentIndex then
        { s with currentIndex := s.currentIndex - 1 }
      else s
    else s
  | NavInput.nextButton =>
    if (s.currentIndex : Int) < (s.articles.length : Int) - 1 then
      { s with currentIndex := s.currentIndex + 1 }
    else s
  | NavInput.prevButton =>
    if 0 < s.currentIndex then { s with currentIndex := s.currentIndex - 1 } else s
  | NavInput.append batch =>
    { s with articles := if batch.isEmpty then s.articles else appendUnique s.articles batch }

/-- Run the pagination state machine over a sequence of inputs. -/
def navRun (s : FeedState) (evs : List NavInput) : FeedState :=
  evs.foldl navStep s

/-- The startup pagination state: empty buffer, index 0. -/
def initialFeedState : FeedState := { articles := [], currentIndex := 0 }

/-! ## Concrete fixtures used by witnesses and counterexamples -/

/-- A minimal concrete article. -/
def artA : Article := ⟨"a", "T", [], "A", "#", 2020, "semantic"⟩

/-- An abstract of 120 characters, comfortably over the 100-character
qualification threshold. -/
def longAbs : String := String.mk (List.replicate 120 'a')

/-- A raw paper with a fixed id and a qualifying abstract. -/
def paperDup : Paper := ⟨some "dup", some "T", none, some longAbs, none, some 2020⟩

/-- A raw paper with every optional field missing except title and
abstract. -/
def paperBare : Paper := ⟨none, some "T", none, some longAbs, none, none⟩

/-- A provider that answers every query with the same paper twice. -/
def netDup : String → Nat → Option (List Paper) := fun _ _ => some [paperDup, paperDup]

/-- A provider that answers every query with one qualifying paper. -/
def netSingle : String → Nat → Option (List Paper) := fun _ _ => some [paperDup]

/-- A provider whose every call fails. -/
def netFail : String → Nat → Option (List Paper) := fun _ _ => none

/-- A deterministic synthesized-id generator. -/
def freshIds (n : Nat) : String := "synth-" ++ toString n

/-- The idle startup fetch state. -/
def st0 : AppState := ⟨false, [], [], []⟩

/-- A fetch state with a fetch in flight. -/
def stLoading : AppState := ⟨true, [artA], [("k", [artA])], ["k"]⟩

/-- A concrete article whose text mentions the vocabulary terms `ai` and
`data`. -/
def artAI : Article :=
  ⟨"ai1", "AI and data", [], "Deep learning of ai for data analysis", "#", 2021, "semantic"⟩

/-- The provider response of end-to-end scenario 3: five items, two of
which have abstracts under 100 characters. -/
def scenarioPapers : List Paper :=
  [ ⟨some "p1", some "T1", none, some longAbs, none, some 2020⟩,
    ⟨some "p2", some "T2", none, some "short", none, some 2020⟩,
    ⟨some "p3", some "T3", none, some longAbs, none, some 2020⟩,
    ⟨some "p4", some "T4", none, some "short", none, some 2020⟩,
    ⟨some "p5", some "T5", none, some longAbs, none, some 2020⟩ ]

/-! ## Theorems -/

/-- Claim C7: a call to `fetchArticles` made while another fetch is in
flight (`loading = true`) returns immediately and leaves the whole state —
in particular the article buffer, the cache map and the used-key set —
unchanged. -/
theorem fetchArticles_noop_when_loading (net : String → Nat → Option (List Paper))
    (fresh : Nat → String) (currentYear : Nat) (draws : List (String × Nat))
    (st : AppState) (h : st.loading = true) :
    fetchArticles net fresh currentYear draws st = st := by
  simp [fetchArticles, h]

/-- Witness for claim C7: the loading guard short-circuits on a concrete
in-flight state. -/
theorem fetchArticles_noop_when_loading_witness :
    fetchArticles netSingle freshIds 2026 [("science", 0)] stLoading = stLoading :=
  fetchArticles_noop_when_loading netSingle freshIds 2026 [("science", 0)] stLoading rfl

/-- Counterexample to claim C1 as stated: at `buffer.length = 4`,
`currentIndex = 0`, `loading = false`, the remaining count
`buffer.length - 1 - currentIndex = 3` satisfies `remaining ≤ 3`, yet the
buffer-low effect fires no fetch, because the source condition is
`articles.length - currentIndex <= 3` (that is, `remaining ≤ 2`). -/
theorem bufferLow_remaining_three_counterexample :
    ((4 : Int) - 1 - 0 ≤ 3) ∧ bufferLowFetchCount 4 0 false ≠ 1 := by
  decide

/-- Claim C1 (amended): the buffer-low effect triggers exactly one
`fetchArticles` invocation when no fetch is in flight and
`remaining = buffer.length - 1 - currentIndex` is at most 2 (equivalently
`buffer.length - currentIndex ≤ 3`), zero invocations when `remaining`
exceeds 2, and zero invocations whenever `loading` is true. -/
theorem bufferLow_trigger (len idx : Nat) (loading : Bool) :
    (loading = true → bufferLowFetchCount len idx loading = 0) ∧
    (loading = false →
      (((len : Int) - 1 - idx ≤ 2) → bufferLowFetchCount len idx loading = 1) ∧
      ((2 < (len : Int) - 1 - idx) → bufferLowFetchCount len idx loading = 0)) := by
  constructor
  · intro h; subst h; simp [bufferLowFetchCount]
  · intro h; subst h
    constructor
    · intro hr; simp only [bufferLowFetchCount]; rw [if_pos]; exact ⟨by omega, trivial⟩
    · intro hr; simp only [bufferLowFetchCount]; rw [if_neg]
      rintro ⟨hc, -⟩
      omega

/-- Witness for claim C1 (amended), at the state of end-to-end scenario 4:
six articles, `currentIndex = 4`. -/
theorem bufferLow_trigger_witness :
    bufferLowFetchCount 6 4 false = 1 ∧ bufferLowFetchCount 6 4 true = 0 :=
  ⟨((bufferLow_trigger 6 4 false).2 rfl).1 (by decide),
   (bufferLow_trigger 6 4 true).1 rfl⟩

/-- Counterexample to claim C2 as stated: a cache hit on a key outside the
used-key set adopts the cached list and stops, but the key is NOT added to
the used-key set — the source breaks out of the loop without touching
`usedCacheKeys`. -/
theorem cacheHit_key_not_marked_counterexample :
    (fetchLoop netFail freshIds 2026 [("science", 0)] 3
        [("science-0", [artA])] []).batch = [artA] ∧
    "science-0" ∉ (fetchLoop netFail freshIds 2026 [("science", 0)] 3
        [("science-0", [artA])] []).usedKeys := by
  decide

/-- Claim C2 (amended): when the drawn cache key is not in the used-key set
but has a cache entry, the cached list is adopted as the batch and the
attempt loop stops at once — no provider contact, no further retries, and,
contrary to the claim, the used-key set is left unchanged (the key is not
marked used). -/
theorem fetchLoop_cacheHit (net : String → Nat → Option (List Paper))
    (fresh : Nat → String) (year : Nat) (term : String) (offset : Nat)
    (rest : List (String × Nat)) (fuel : Nat)
    (cache : List (String × List Article)) (used : List String)
    (batch : List Article)
    (hused : cacheKeyOf term offset ∉ used)
    (hcache : lookupCache cache (cacheKeyOf term offset) = some batch) :
    fetchLoop net fresh year ((term, offset) :: rest) (fuel + 1) cache used
      = ⟨batch, cache, used, [], some (cacheKeyOf term offset)⟩ := by
  have hc : used.contains (cacheKeyOf term offset) = false := by
    simp [List.contains, hused]
  simp [fetchLoop, hc, hcache, hused]

/-- Witness for claim C2 (amended) at a concrete cache state. -/
theorem fetchLoop_cacheHit_witness :
    fetchLoop netFail freshIds 2026 [("science", 0)] 3
        [("science-0", [artA])] []
      = ⟨[artA], [("science-0", [artA])], [], [], some "science-0"⟩ :=
  fetchLoop_cacheHit netFail freshIds 2026 "science" 0 [] 2
    [("science-0", [artA])] [] [artA] (by decide) (by decide)

/-- Counterexample to claim C3 as stated: an unparsable stored preferences
string, and an unparsable saved-article snapshot, both make `JSON.parse`
throw — neither read falls back to a default. -/
theorem storage_parse_throw_counterexample :
    loadPreferences (some "garbage") (fun _ => none) = Except.error () ∧
    getSavedArticles ["x"] (fun _ => some "garbage") (fun _ => none)
      = Except.error () := by
  constructor <;> rfl

/-- Claim C3 (amended): loading preferences returns the default all-empty
record when nothing (or an empty string) is persisted, and returns the
parsed record when the stored value parses, but an unparsable stored value
propagates the `JSON.parse` exception.  Reconstructing the saved list skips
every id whose snapshot is missing and never throws as long as each present
snapshot is empty or parsable; an unparsable snapshot propagates the
exception. -/
theorem storage_defaults_spec (parse : String → Option UserPreferences)
    (aparse : String → Option Article) :
    loadPreferences none parse = Except.ok defaultPreferences ∧
    loadPreferences (some "") parse = Except.ok defaultPreferences ∧
    (∀ s p, s ≠ "" → parse s = some p → loadPreferences (some s) parse = Except.ok p) ∧
    (∀ ids : List String, getSavedArticles ids (fun _ => none) aparse = Except.ok []) ∧
    (∀ (ids : List String) (store : String → Option String),
      (∀ k s, store k = some s → s = "" ∨ (aparse s).isSome) →
      ∃ l, getSavedArticles ids store aparse = Except.ok l) := by
  refine ⟨rfl, rfl, ?_, ?_, ?_⟩
  · intro s p hs hp
    simp [loadPreferences, hp, hs]
  · intro ids
    have hmap : ∀ ids : List String,
        ids.mapM (readSnapshot (fun _ => none) aparse)
          = Except.ok (ids.map fun _ => (Option.none : Option Article)) := by
      intro ids
      induction ids with
      | nil => rfl
      | cons i ids ih => rw [List.mapM_cons, ih]; rfl
    rw [getSavedArticles, hmap]
    simp [Except.map]
  · intro ids store hstore
    have hread : ∀ i, ∃ o, readSnapshot store aparse i = Except.ok o := by
      intro i
      unfold readSnapshot
      rcases hsi : store ("scitok-saved-" ++ i) with _ | s
      · exact ⟨Option.none, rfl⟩
      · by_cases hs : s = ""
        · exact ⟨Option.none, by simp [hs]⟩
        · rcases hstore _ _ hsi with he | hsome
          · exact absurd he hs
          · obtain ⟨a, ha⟩ := Option.isSome_iff_exists.mp hsome
            exact ⟨Option.some a, by simp [hs, ha]⟩
    have hmap : ∃ items, ids.mapM (readSnapshot store aparse) = Except.ok items := by
      induction ids with
      | nil => exact ⟨[], rfl⟩
      | cons i ids ih =>
        obtain ⟨o, ho⟩ := hread i
        obtain ⟨items, hitems⟩ := ih
        refine ⟨o :: items, ?_⟩
        rw [List.mapM_cons, ho, hitems]
        rfl
    obtain ⟨items, hitems⟩ := hmap
    rw [getSavedArticles, hitems]
    exact ⟨_, rfl⟩

/-- Witness for claim C3 (amended) at concrete storage contents. -/
theorem storage_defaults_spec_witness :
    loadPreferences none (fun _ => none) = Except.ok defaultPreferences ∧
    loadPreferences (some "j") (fun _ => some defaultPreferences)
      = Except.ok defaultPreferences ∧
    getSavedArticles ["x", "y"] (fun _ => none) (fun _ => none) = Except.ok [] ∧
    ∃ l, getSavedArticles ["x"] (fun _ => some "s") (fun _ => some artA)
      = Except.ok l :=
  ⟨(storage_defaults_spec (fun _ => none) (fun _ => none)).1,
   (storage_defaults_spec (fun _ => some defaultPreferences) (fun _ => none)).2.2.1
     "j" defaultPreferences (by decide) rfl,
   (storage_defaults_spec (fun _ => none) (fun _ => none)).2.2.2.1 ["x", "y"],
   (storage_defaults_spec (fun _ => none) (fun _ => some artA)).2.2.2.2 ["x"]
     (fun _ => some "s") (fun _ _ h => Or.inr (by cases h; rfl))⟩

/-- Claim C8: once a cache key is in the used-key set it is never consumed
again within the session.  First conjunct: an attempt that draws a used key
consumes the attempt and continues, leaving everything else unchanged
(therefore without contacting the provider and without adopting a batch).
Second conjunct: along any run of the retry loop, a key already in the
used-key set is never among the provider calls, is never the adopted key,
and remains in the used-key set. -/
theorem usedKey_never_reselected (net : String → Nat → Option (List Paper))
    (fresh : Nat → String) (year : Nat) (k : String) :
    (∀ (term : String) (offset : Nat) (rest : List (String × Nat)) (fuel : Nat)
        (cache : List (String × List Article)) (used : List String),
      cacheKeyOf term offset ∈ used →
      fetchLoop net fresh year ((term, offset) :: rest) (fuel + 1) cache used
        = fetchLoop net fresh year rest fuel cache used) ∧
    (∀ (draws : List (String × Nat)) (fuel : Nat)
        (cache : List (String × List Article)) (used : List String),
      k ∈ used →
      k ∉ (fetchLoop net fresh year draws fuel cache used).providerCalls ∧
      (fetchLoop net fresh year draws fuel cache used).adoptedKey ≠ some k ∧
      k ∈ (fetchLoop net fresh year draws fuel cache used).usedKeys) := by
  constructor
  · intro term offset rest fuel cache used h
    have hc : used.contains (cacheKeyOf term offset) = true := by
      simp [List.contains, h]
    simp [fetchLoop, hc, h]
  · intro draws
    induction draws with
    | nil =>
      intro fuel cache used hk
      cases fuel <;> simp [fetchLoop, hk]
    | cons d rest ih =>
      intro fuel cache used hk
      obtain ⟨term, offset⟩ := d
      cases fuel with
      | zero => simp [fetchLoop, hk]
      | succ n =>
        by_cases hu : cacheKeyOf term offset ∈ used
        · have hc : used.contains (cacheKeyOf term offset) = true := by
            simp [List.contains, hu]
          rw [show fetchLoop net fresh year ((term, offset) :: rest) (n + 1) cache used
              = fetchLoop net fresh year rest n cache used by simp [fetchLoop, hc, hu]]
          exact ih n cache used hk
        · have hkey : cacheKeyOf term offset ≠ k := fun he => hu (he ▸ hk)
          have hc : used.contains (cacheKeyOf term offset) = false := by
            simp [List.contains, hu]
          cases hl : lookupCache cache (cacheKeyOf term offset) with
          | some cached =>
            rw [show fetchLoop net fresh year ((term, offset) :: rest) (n + 1) cache used
                = ⟨cached, cache, used, [], some (cacheKeyOf term offset)⟩ by
              simp [fetchLoop, hc, hu, hl]]
            refine ⟨by simp, by simp [hkey], hk⟩
          | none =>
            cases hn : net term offset with
            | none =>
              have heq : fetchLoop net fresh year ((term, offset) :: rest) (n + 1) cache used
                  = { fetchLoop net fresh year rest n cache used with
                      providerCalls :=
                        cacheKeyOf term offset ::
                          (fetchLoop net fresh year rest n cache used).providerCalls } := by
                simp [fetchLoop, hc, hu, hl, hn]
              obtain ⟨h1, h2, h3⟩ := ih n cache used hk
              rw [heq]
              refine ⟨?_, h2, h3⟩
              simp [hkey.symm, h1]
            | some papers =>
              by_cases hf : (processResponse fresh year papers).isEmpty
              · have heq : fetchLoop net fresh year ((term, offset) :: rest) (n + 1) cache used
                    = { fetchLoop net fresh year rest n cache used with
                        providerCalls :=
                          cacheKeyOf term offset ::
                            (fetchLoop net fresh year rest n cache used).providerCalls } := by
                  simp [fetchLoop, hc, hu, hl, hn, hf]
                obtain ⟨h1, h2, h3⟩ := ih n cache used hk
                rw [heq]
                refine ⟨?_, h2, h3⟩
                simp [hkey.symm, h1]
              · have heq : fetchLoop net fresh year ((term, offset) :: rest) (n + 1) cache used
                    = ⟨processResponse fresh year papers,
                        (cacheKeyOf term offset, processResponse fresh year papers) :: cache,
                        cacheKeyOf term offset :: used, [cacheKeyOf term offset],
                        some (cacheKeyOf term offset)⟩ := by
                  simp [fetchLoop, hc, hu, hl, hn, hf]
                rw [heq]
                refine ⟨by simp [hkey.symm], by simp [hkey], List.mem_cons_of_mem _ hk⟩

/-- Witness for claim C8: a concrete loop run whose only draw hits the used
key `a-1` skips it without any provider contact. -/
theorem usedKey_never_reselected_witness :
    "a-1" ∉ (fetchLoop netSingle freshIds 2026 [("a", 1)] 3 [] ["a-1"]).providerCalls ∧
    (fetchLoop netSingle freshIds 2026 [("a", 1)] 3 [] ["a-1"]).adoptedKey ≠ some "a-1" ∧
    "a-1" ∈ (fetchLoop netSingle freshIds 2026 [("a", 1)] 3 [] ["a-1"]).usedKeys :=
  (usedKey_never_reselected netSingle freshIds 2026 "a-1").2
    [("a", 1)] 3 [] ["a-1"] (by decide)

set_option maxRecDepth 40000 in
/-- Counterexample to claim C4 as stated: a provider batch that repeats an
id within itself is appended twice — the dedup filter checks the incoming
batch only against ids already in the buffer, not against the batch
itself, so not every provider behaviour preserves id-uniqueness. -/
theorem buffer_dup_counterexample :
    ¬ (((fetchArticles netDup freshIds 2026 [("science", 0)] st0).articles.map
        (fun a => a.id)).Nodup) := by
  decide

/-- The dedup append preserves id-uniqueness of the buffer provided the
incoming batch is itself free of internal duplicate ids. -/
theorem appendUnique_nodup (prev batch : List Article)
    (h1 : (prev.map (fun a => a.id)).Nodup)
    (h2 : (batch.map (fun a => a.id)).Nodup) :
    ((appendUnique prev batch).map (fun a => a.id)).Nodup := by
  unfold appendUnique
  rw [List.map_append, List.nodup_append]
  refine ⟨h1, ?_, ?_⟩
  · exact List.Nodup.sublist ((List.filter_sublist batch).map (fun a => a.id)) h2
  · intro x hx hy
    obtain ⟨a, ha, rfl⟩ := List.mem_map.mp hy
    have hpass := (List.mem_filter.mp ha).2
    have hnotin : a.id ∉ prev.map (fun a => a.id) := by
      simpa using hpass
    exact hnotin hx

/-- Claim C4 (amended): across every fetch and every provider behaviour
whose adopted batch has pairwise-distinct ids, `fetchArticles` preserves
the invariant that no two elements of the buffer share an id (batches
repeating ids of earlier batches, and repeated cache-key hits, are
filtered; only internal duplication within one adopted batch can break
uniqueness). -/
theorem fetchArticles_nodup (net : String → Nat → Option (List Paper))
    (fresh : Nat → String) (year : Nat) (draws : List (String × Nat)) (st : AppState)
    (h1 : (st.articles.map (fun a => a.id)).Nodup)
    (h2 : (((fetchLoop net fresh year draws 3 st.cache st.usedKeys).batch).map
        (fun a => a.id)).Nodup) :
    (((fetchArticles net fresh year draws st).articles).map (fun a => a.id)).Nodup := by
  by_cases hl : st.loading = true
  · simpa [fetchArticles, hl] using h1
  · have hl' : st.loading = false := by simpa using hl
    simp only [fetchArticles, hl', Bool.false_eq_true, if_false]
    split
    · exact h1
    · exact appendUnique_nodup st.articles _ h1 h2

set_option maxRecDepth 40000 in
/-- Witness for claim C4 (amended): a concrete fetch from the empty state
adopting a one-article batch keeps buffer ids unique. -/
theorem fetchArticles_nodup_witness :
    (((fetchArticles netSingle freshIds 2026 [("science", 0)] st0).articles).map
      (fun a => a.id)).Nodup :=
  fetchArticles_nodup netSingle freshIds 2026 [("science", 0)] st0 (by decide) (by decide)

/-- The dedup append never shrinks the buffer. -/
theorem appendUnique_length_le (prev batch : List Article) :
    prev.length ≤ (appendUnique prev batch).length := by
  simp [appendUnique]

/-- One navigation or append input preserves the index bound
`currentIndex ≤ articles.length - 1` (with truncated subtraction, so the
empty buffer pins the index to 0): forward inputs increment only under the
guard `currentIndex < articles.length - 1`, backward inputs decrement only
under `currentIndex > 0`, and appends never shrink the buffer. -/
theorem navStep_bound (s : FeedState) (e : NavInput)
    (h : s.currentIndex ≤ s.articles.length - 1) :
    (navStep s e).currentIndex ≤ (navStep s e).articles.length - 1 := by
  cases e with
  | append batch =>
    have h2 := appendUnique_length_le s.articles batch
    simp only [navStep]
    split
    · exact h
    · show s.currentIndex ≤ (appendUnique s.articles batch).length - 1
      omega
  | wheel d =>
    simp only [navStep]
    repeat' split
    all_goals first | exact h | (simp_all; omega)
  | keyArrowDown =>
    simp only [navStep]
    repeat' split
    all_goals first | exact h | (simp_all; omega)
  | keyArrowUp =>
    simp only [navStep]
    repeat' split
    all_goals first | exact h | (simp_all; omega)
  | touch diff =>
    simp only [navStep]
    repeat' split
    all_goals first | exact h | (simp_all; omega)
  | nextButton =>
    simp only [navStep]
    repeat' split
    all_goals first | exact h | (simp_all; omega)
  | prevButton =>
    simp only [navStep]
    repeat' split
    all_goals first | exact h | (simp_all; omega)

/-- Claim C5: for every sequence of navigation inputs (wheel, keyboard,
touch or button) interleaved with buffer appends, starting from the
initial state, `currentIndex` stays within
`[0, max 0 (buffer.length - 1)]`. -/
theorem navRun_index_bounded (evs : List NavInput) :
    (navRun initialFeedState evs).currentIndex
      ≤ max 0 ((navRun initialFeedState evs).articles.length - 1) := by
  have key : ∀ (s : FeedState), s.currentIndex ≤ s.articles.length - 1 →
      ∀ evs, (navRun s evs).currentIndex ≤ (navRun s evs).articles.length - 1 := by
    intro s hs evs
    induction evs generalizing s with
    | nil => exact hs
    | cons e evs ih => exact ih (navStep s e) (navStep_bound s e hs)
  have := key initialFeedState (by decide) evs
  omega

/-- Claim C9: with no topics, `getRecommendedTerms` returns exactly the
15-term default vocabulary in its fixed order; with topics present (some
with positive score), it returns the top 5 topics sorted by descending
score followed by the full default vocabulary, duplicates allowed — in
particular `{"ai": 3, "biology": 1}` yields a list beginning
`["ai", "biology"]` followed by the default vocabulary. -/
theorem getRecommendedTerms_spec :
    getRecommendedTerms [] = SEARCH_TERMS ∧
    SEARCH_TERMS.length = 15 ∧
    getRecommendedTerms [("ai", 3), ("biology", 1)] = "ai" :: "biology" :: SEARCH_TERMS ∧
    ∀ topics : List (String × Nat), (∃ e ∈ topics, 0 < e.2) →
      getRecommendedTerms topics
        = ((sortTopics topics).take 5).map Prod.fst ++ SEARCH_TERMS ∧
      ((sortTopics topics).map Prod.snd).Pairwise (fun x y => y ≤ x) := by
  refine ⟨rfl, rfl, by decide, ?_⟩
  rintro topics ⟨e, he, -⟩
  constructor
  · have hne : topics ≠ [] := by rintro rfl; exact absurd he (List.not_mem_nil e)
    have hlen : (sortTopics topics).length = topics.length :=
      (List.perm_insertionSort topicGE topics).length_eq
    have hpos : 0 < topics.length := List.length_pos.mpr hne
    simp only [getRecommendedTerms]
    rw [if_pos]
    rw [List.length_map, List.length_take, hlen]
    omega
  · have hs := List.sorted_insertionSort topicGE topics
    rw [List.pairwise_map]
    exact hs

/-- Witness for claim C9 at a concrete one-topic record. -/
theorem getRecommendedTerms_spec_witness :
    getRecommendedTerms [("a", 1)] = ["a"] ++ SEARCH_TERMS ∧
    ((sortTopics [("a", 1)]).map Prod.snd).Pairwise (fun x y => y ≤ x) := by
  have h := getRecommendedTerms_spec.2.2.2 [("a", 1)] ⟨("a", 1), by decide, by decide⟩
  exact ⟨h.1.trans (by decide), h.2⟩

/-- Claim C10: a successful provider response is filtered to the results
with a truthy (non-empty) title and an abstract longer than 100 characters,
each mapped to an `Article`; so the output length equals the number of
qualifying results — in particular 5 items of which 2 have short abstracts
yield exactly 3 articles — and a paper with missing id, url and year gets
the synthesized id, the `"#"` sentinel url and the current year. -/
theorem processResponse_spec :
    (∀ (fresh : Nat → String) (year : Nat) (papers : List Paper),
      (processResponse fresh year papers).length = papers.countP qualifies) ∧
    (processResponse freshIds 2026 scenarioPapers).length = 3 ∧
    processResponse freshIds 2026 [paperBare]
      = [⟨"synth-0", "T", [], longAbs, "#", 2026, "semantic"⟩] := by
  refine ⟨?_, ?_, ?_⟩
  · intro fresh year papers
    simp [processResponse, List.countP_eq_length_filter]
  · set_option maxRecDepth 40000 in decide
  · set_option maxRecDepth 40000 in decide

/-- The key-preserving update map commutes with `find?` on a key
predicate. -/
theorem find?_update (m : List (String × Nat)) (t s : String) (v : Nat) :
    (m.map (fun e => if e.1 == t then (e.1, v) else e)).find? (fun e => e.1 == s)
      = (m.find? (fun e => e.1 == s)).map (fun e => if e.1 == t then (e.1, v) else e) := by
  induction m with
  | nil => rfl
  | cons e m ih =>
    have h1 : ((if e.1 == t then ((e.1 : String), v) else e).1 == s) = (e.1 == s) := by
      split <;> rfl
    simp only [List.map_cons, List.find?_cons, h1]
    cases hes : (e.1 == s)
    · exact ih
    · rfl

/-- Writing a score and reading it back at the same key gives the written
value. -/
theorem topicScore_setTopic_self (m : List (String × Nat)) (t : String) (v : Nat) :
    topicScore (setTopic m t v) t = v := by
  unfold setTopic
  by_cases h : m.any (fun e => e.1 == t) = true
  · rw [if_pos h]
    unfold topicScore
    rw [find?_update]
    obtain ⟨e, he, hp⟩ := List.any_eq_true.mp h
    have hsome : m.find? (fun e => e.1 == t) ≠ none := by
      intro hn
      exact absurd hp (List.find?_eq_none.mp hn e he)
    obtain ⟨e', he'⟩ := Option.ne_none_iff_exists'.mp hsome
    have hp' := List.find?_some he'
    rw [he']
    simp only [Option.map_some']
    rw [if_pos hp']
  · rw [if_neg h]
    have h' : m.any (fun e => e.1 == t) = false := Bool.eq_false_iff.mpr h
    unfold topicScore
    rw [List.find?_append]
    have hnone : m.find? (fun e => e.1 == t) = none := by
      rw [List.find?_eq_none]
      intro x hx
      exact List.any_eq_false.mp h' x hx
    rw [hnone]
    simp

/-- Writing a score at one key leaves every other key's score unchanged. -/
theorem topicScore_setTopic_other (m : List (String × Nat)) (t s : String) (v : Nat)
    (hst : s ≠ t) :
    topicScore (setTopic m t v) s = topicScore m s := by
  unfold setTopic
  by_cases h : m.any (fun e => e.1 == t) = true
  · rw [if_pos h]
    unfold topicScore
    rw [find?_update]
    cases hm : m.find? (fun e => e.1 == s) with
    | none => rfl
    | some e =>
      have hp := List.find?_some hm
      have hes : e.1 = s := by simpa using hp
      simp [hes, hst]
  · rw [if_neg h]
    unfold topicScore
    rw [List.find?_append]
    cases hm : m.find? (fun e => e.1 == s) with
    | none =>
      have hts : (t == s) = false := beq_false_of_ne (fun he => hst he.symm)
      simp [List.find?_singleton, hts]
    | some e => simp

/-- Folding the per-term bump over a duplicate-free term list adds exactly
1 to the score of each matching term and leaves every other score
unchanged. -/
theorem topicScore_bumpFold (a : Article) (terms : List String)
    (hnd : terms.Nodup) (m : List (String × Nat)) (t : String) :
    topicScore (terms.foldl (fun acc term => if matchesTerm a term then
        setTopic acc term (topicScore acc term + 1) else acc) m) t
      = topicScore m t + (if t ∈ terms ∧ matchesTerm a t then 1 else 0) := by
  induction terms generalizing m with
  | nil => simp
  | cons term terms ih =>
    rw [List.foldl_cons]
    have hnd' : terms.Nodup := hnd.of_cons
    have hnotmem : term ∉ terms := (List.nodup_cons.mp hnd).1
    by_cases hmt : t = term
    · subst hmt
      rw [ih hnd']
      by_cases hm : matchesTerm a t
      · rw [if_pos hm, topicScore_setTopic_self]
        simp [hnotmem, hm]
      · rw [if_neg hm]
        simp [hm]
    · by_cases hm : matchesTerm a term
      · rw [if_pos hm, ih hnd', topicScore_setTopic_other _ _ _ _ hmt]
        congr 1
        simp [List.mem_cons, hmt]
      · rw [if_neg hm, ih hnd']
        congr 1
        simp [List.mem_cons, hmt]

/-- The like-time topic update adds exactly 1 to the score of each
vocabulary term occurring in the article's text. -/
theorem topicScore_bumpTopics (a : Article) (m : List (String × Nat)) (t : String) :
    topicScore (bumpTopics a m) t
      = topicScore m t + (if t ∈ SEARCH_TERMS ∧ matchesTerm a t then 1 else 0) :=
  topicScore_bumpFold a SEARCH_TERMS (by decide) m t

/-- Toggling a like twice restores membership of every id in
`likedArticles`. -/
theorem handleLike_mem_inverse (p : UserPreferences) (a : Article) (x : String) :
    x ∈ (handleLike (handleLike p a) a).likedArticles ↔ x ∈ p.likedArticles := by
  by_cases h : a.id ∈ p.likedArticles
  · have hc : p.likedArticles.contains a.id = true := by simp [List.contains, h]
    have hc2 : (p.likedArticles.filter (fun i => i != a.id)).contains a.id = false := by
      simp [List.contains]
    simp only [handleLike, hc, if_true, hc2, Bool.false_eq_true, if_false]
    simp only [List.mem_append, List.mem_filter, List.mem_singleton, bne_iff_ne, ne_eq,
      decide_eq_true_eq]
    by_cases hx : x = a.id
    · subst hx; simp [h]
    · simp [hx]
  · have hc : p.likedArticles.contains a.id = false := by simp [List.contains, h]
    have hc2 : (p.likedArticles ++ [a.id]).contains a.id = true := by
      simp [List.contains]
    simp only [handleLike, hc, Bool.false_eq_true, if_false, hc2, if_true]
    simp only [List.mem_filter, List.mem_append, List.mem_singleton, bne_iff_ne, ne_eq,
      decide_eq_true_eq]
    by_cases hx : x = a.id
    · subst hx; simp [h]
    · simp [hx]

/-- Claim C6: `handleLike` is its own inverse on `likedArticles`
membership, while topic scores never decrease — unliking leaves all scores
unchanged and liking adds exactly 1 to the score of every fixed-vocabulary
term occurring case-insensitively in the article's title + abstract (and
leaves every other score unchanged). -/
theorem handleLike_spec (p : UserPreferences) (a : Article) :
    (∀ x : String, x ∈ (handleLike (handleLike p a) a).likedArticles ↔ x ∈ p.likedArticles) ∧
    (a.id ∈ p.likedArticles → (handleLike p a).likedTopics = p.likedTopics) ∧
    (a.id ∉ p.likedArticles → ∀ t : String,
      topicScore (handleLike p a).likedTopics t
        = topicScore p.likedTopics t
          + (if t ∈ SEARCH_TERMS ∧ matchesTerm a t then 1 else 0)) ∧
    (∀ t : String, topicScore p.likedTopics t ≤ topicScore (handleLike p a).likedTopics t) := by
  refine ⟨handleLike_mem_inverse p a, ?_, ?_, ?_⟩
  · intro h
    have hc : p.likedArticles.contains a.id = true := by simp [List.contains, h]
    simp [handleLike, hc, h]
  · intro h t
    have hc : p.likedArticles.contains a.id = false := by simp [List.contains, h]
    simp only [handleLike, hc, Bool.false_eq_true, if_false]
    exact topicScore_bumpTopics a p.likedTopics t
  · intro t
    by_cases h : a.id ∈ p.likedArticles
    · have hc : p.likedArticles.contains a.id = true := by simp [List.contains, h]
      simp [handleLike, hc, h]
    · have hc : p.likedArticles.contains a.id = false := by simp [List.contains, h]
      simp only [handleLike, hc, Bool.false_eq_true, if_false]
      rw [topicScore_bumpTopics a p.likedTopics t]
      exact Nat.le_add_right _ _

/-- Witness for claim C6: liking a concrete article whose text contains
`ai` sets that topic score to 1, and toggling twice restores membership. -/
theorem handleLike_spec_witness :
    topicScore (handleLike defaultPreferences artAI).likedTopics "ai" = 1 ∧
    ("ai1" ∈ (handleLike (handleLike defaultPreferences artAI) artAI).likedArticles
      ↔ "ai1" ∈ defaultPreferences.likedArticles) := by
  have h := handleLike_spec defaultPreferences artAI
  refine ⟨?_, h.1 "ai1"⟩
  rw [h.2.2.1 (by decide) "ai"]
  decide

end SciTok
